import Mathlib

/-!
Verification of the notox name-sanitization core (src/src/lib.rs).

The development shallowly embeds the sanitizer: raw path-component bytes are
modelled as `List Nat` (each entry a u8 value), the accumulated output string
as Lean `String`, and the per-byte loop of `clean_name` as a fold of an
explicit step function over the byte list.
-/

set_option maxRecDepth 10000
set_option linter.unreachableTactic false
set_option linter.unusedTactic false
set_option linter.unnecessarySeqFocus false
set_option maxHeartbeats 1600000

/-- Action selected by one arm of the big character match inside
`check_similar` (src/src/lib.rs lines 250-417).  Every source arm either
pushes a fixed ASCII string and returns `false` (`literal`), pushes nothing
on the combining-mark ranges and returns `false` (`silent`), pushes a hyphen
for the en-dash and returns `false` (`hyphenLike`), or conditionally pushes
one underscore and returns `true` (`unrecognized`). -/
inductive SimilarAction where
  | literal (s : String)
  | silent
  | hyphenLike
  | unrecognized
deriving DecidableEq, Repr

/-- Combining-mark test of the source arm
`'\u{0300}'..='\u{036F}' | '\u{1AB0}'..='\u{1AFF}' | '\u{1DC0}'..='\u{1DFF}' => \x7b\x7d`.
Lean has no character-range patterns, so the range arm is tested before the
literal match below; this is equivalent because no literal arm character
falls inside these three ranges. -/
def is_combining (c : Char) : Bool :=
  decide ((0x300 ≤ c.toNat ∧ c.toNat ≤ 0x36F) ∨ (0x1AB0 ≤ c.toNat ∧ c.toNat ≤ 0x1AFF)
    ∨ (0x1DC0 ≤ c.toNat ∧ c.toNat ≤ 0x1DFF))

/-- Transliteration table of `check_similar` (src/src/lib.rs lines 252-405),
one entry per source match arm, in source order: the characters of the arm
pattern paired with the arm action (`literal` for a fixed-string push,
`hyphenLike` for the en-dash arm). -/
def similar_table : List (List Char × SimilarAction) := [
  (['A', 'Ⓐ', 'Ａ', 'À', 'Á', 'Â', 'Ầ', 'Ấ', 'Ẫ', 'Ẩ', 'Ã', 'Ā', 'Ă', 'Ằ', 'Ắ', 'Ẵ', 'Ẳ', 'Ȧ',
    'Ǡ', 'Ä', 'Ǟ', 'Ả', 'Å', 'Ǻ', 'Ǎ', 'Ȁ', 'Ȃ', 'Ạ', 'Ậ', 'Ặ', 'Ḁ', 'Ą', 'Ⱥ', 'Ɐ'],
    SimilarAction.literal "A"),
  (['Ꜳ'], SimilarAction.literal "AA"),
  (['Æ', 'Ǽ', 'Ǣ'], SimilarAction.literal "A"),
  (['Ꜵ'], SimilarAction.literal "AO"),
  (['Ꜷ'], SimilarAction.literal "AU"),
  (['Ꜹ', 'Ꜻ'], SimilarAction.literal "AV"),
  (['Ꜽ'], SimilarAction.literal "AY"),
  (['B', 'Ⓑ', 'Ｂ', 'Ḃ', 'Ḅ', 'Ḇ', 'Ƀ', 'Ƃ', 'Ɓ'], SimilarAction.literal "B"),
  (['C', 'Ⓒ', 'Ｃ', 'Ć', 'Ĉ', 'Ċ', 'Č', 'Ç', 'Ḉ', 'Ƈ', 'Ȼ', 'Ꜿ'], SimilarAction.literal "C"),
  (['D', 'Ⓓ', 'Ｄ', 'Ḋ', 'Ď', 'Ḍ', 'Ḑ', 'Ḓ', 'Ḏ', 'Đ', 'Ƌ', 'Ɗ', 'Ɖ', 'Ꝺ'],
    SimilarAction.literal "D"),
  (['Ǳ', 'Ǆ'], SimilarAction.literal "DZ"),
  (['ǲ', 'ǅ'], SimilarAction.literal "Dz"),
  (['E', 'Ⓔ', 'Ｅ', 'È', 'É', 'Ê', 'Ề', 'Ế', 'Ễ', 'Ể', 'Ẽ', 'Ē', 'Ḕ', 'Ḗ', 'Ĕ', 'Ė', 'Ë', 'Ẻ',
    'Ě', 'Ȅ', 'Ȇ', 'Ẹ', 'Ệ', 'Ȩ', 'Ḝ', 'Ę', 'Ḙ', 'Ḛ', 'Ɛ', 'Ǝ'], SimilarAction.literal "E"),
  (['F', 'Ⓕ', 'Ｆ', 'Ḟ', 'Ƒ', 'Ꝼ'], SimilarAction.literal "F"),
  (['G', 'Ⓖ', 'Ｇ', 'Ǵ', 'Ĝ', 'Ḡ', 'Ğ', 'Ġ', 'Ǧ', 'Ģ', 'Ǥ', 'Ɠ', 'Ꞡ', 'Ᵹ', 'Ꝿ'],
    SimilarAction.literal "G"),
  (['H', 'Ⓗ', 'Ｈ', 'Ĥ', 'Ḣ', 'Ḧ', 'Ȟ', 'Ḥ', 'Ḩ', 'Ḫ', 'Ħ', 'Ⱨ', 'Ⱶ', 'Ɥ'],
    SimilarAction.literal "H"),
  (['I', 'Ⓘ', 'Ｉ', 'Ì', 'Í', 'Î', 'Ĩ', 'Ī', 'Ĭ', 'İ', 'Ï', 'Ḯ', 'Ỉ', 'Ǐ', 'Ȉ', 'Ȋ', 'Ị', 'Į',
    'Ḭ', 'Ɨ'], SimilarAction.literal "I"),
  (['J', 'Ⓙ', 'Ｊ', 'Ĵ', 'Ɉ'], SimilarAction.literal "J"),
  (['K', 'Ⓚ', 'Ｋ', 'Ḱ', 'Ǩ', 'Ḳ', 'Ķ', 'Ḵ', 'Ƙ', 'Ⱪ', 'Ꝁ', 'Ꝃ', 'Ꝅ', 'Ꞣ'],
    SimilarAction.literal "K"),
  (['L', 'Ⓛ', 'Ｌ', 'Ŀ', 'Ĺ', 'Ľ', 'Ḷ', 'Ḹ', 'Ļ', 'Ḽ', 'Ḻ', 'Ł', 'Ƚ', 'Ɫ', 'Ⱡ', 'Ꝉ', 'Ꝇ', 'Ꞁ'],
    SimilarAction.literal "L"),
  (['Ǉ'], SimilarAction.literal "LJ"),
  (['ǈ'], SimilarAction.literal "Lj"),
  (['M', 'Ⓜ', 'Ｍ', 'Ḿ', 'Ṁ', 'Ṃ', 'Ɱ', 'Ɯ'], SimilarAction.literal "M"),
  (['N', 'Ⓝ', 'Ｎ', 'Ǹ', 'Ń', 'Ñ', 'Ṅ', 'Ň', 'Ṇ', 'Ņ', 'Ṋ', 'Ṉ', 'Ƞ', 'Ɲ', 'Ꞑ', 'Ꞥ'],
    SimilarAction.literal "N"),
  (['Ǌ'], SimilarAction.literal "NJ"),
  (['ǋ'], SimilarAction.literal "Nj"),
  (['O', 'Ⓞ', 'Ｏ', 'Ò', 'Ó', 'Ô', 'Ồ', 'Ố', 'Ỗ', 'Ổ', 'Õ', 'Ṍ', 'Ȭ', 'Ṏ', 'Ō', 'Ṑ', 'Ṓ', 'Ŏ',
    'Ȯ', 'Ȱ', 'Ö', 'Ȫ', 'Ỏ', 'Ő', 'Ǒ', 'Ȍ', 'Ȏ', 'Ơ', 'Ờ', 'Ớ', 'Ỡ', 'Ở', 'Ợ', 'Ọ', 'Ộ', 'Ǫ',
    'Ǭ', 'Ø', 'Ǿ', 'Ɔ', 'Ɵ', 'Ꝋ', 'Ꝍ'], SimilarAction.literal "O"),
  (['Ƣ'], SimilarAction.literal "OI"),
  (['Ꝏ'], SimilarAction.literal "OO"),
  (['Ȣ'], SimilarAction.literal "OU"),
  (['\u008C', 'Œ'], SimilarAction.literal "OE"),
  (['\u009C', 'œ'], SimilarAction.literal "oe"),
  (['P', 'Ⓟ', 'Ｐ', 'Ṕ', 'Ṗ', 'Ƥ', 'Ᵽ', 'Ꝑ', 'Ꝓ', 'Ꝕ'], SimilarAction.literal "P"),
  (['Q', 'Ⓠ', 'Ｑ', 'Ꝗ', 'Ꝙ', 'Ɋ'], SimilarAction.literal "Q"),
  (['R', 'Ⓡ', 'Ｒ', 'Ŕ', 'Ṙ', 'Ř', 'Ȑ', 'Ȓ', 'Ṛ', 'Ṝ', 'Ŗ', 'Ṟ', 'Ɍ', 'Ɽ', 'Ꝛ', 'Ꞧ', 'Ꞃ'],
    SimilarAction.literal "R"),
  (['S', 'Ⓢ', 'Ｓ', 'ẞ', 'Ś', 'Ṥ', 'Ŝ', 'Ṡ', 'Š', 'Ṧ', 'Ṣ', 'Ṩ', 'Ș', 'Ş', 'Ȿ', 'Ꞩ', 'Ꞅ'],
    SimilarAction.literal "S"),
  (['T', 'Ⓣ', 'Ｔ', 'Ṫ', 'Ť', 'Ṭ', 'Ț', 'Ţ', 'Ṱ', 'Ṯ', 'Ŧ', 'Ƭ', 'Ʈ', 'Ⱦ', 'Ꞇ'],
    SimilarAction.literal "T"),
  (['Ꜩ'], SimilarAction.literal "TZ"),
  (['U', 'Ⓤ', 'Ｕ', 'Ù', 'Ú', 'Û', 'Ũ', 'Ṹ', 'Ū', 'Ṻ', 'Ŭ', 'Ü', 'Ǜ', 'Ǘ', 'Ǖ', 'Ǚ', 'Ủ', 'Ů',
    'Ű', 'Ǔ', 'Ȕ', 'Ȗ', 'Ư', 'Ừ', 'Ứ', 'Ữ', 'Ử', 'Ự', 'Ụ', 'Ṳ', 'Ų', 'Ṷ', 'Ṵ', 'Ʉ'],
    SimilarAction.literal "U"),
  (['V', 'Ⓥ', 'Ｖ', 'Ṽ', 'Ṿ', 'Ʋ', 'Ꝟ', 'Ʌ'], SimilarAction.literal "V"),
  (['Ꝡ'], SimilarAction.literal "VY"),
  (['W', 'Ⓦ', 'Ｗ', 'Ẁ', 'Ẃ', 'Ŵ', 'Ẇ', 'Ẅ', 'Ẉ', 'Ⱳ'], SimilarAction.literal "W"),
  (['X', 'Ⓧ', 'Ｘ', 'Ẋ', 'Ẍ'], SimilarAction.literal "X"),
  (['Y', 'Ⓨ', 'Ｙ', 'Ỳ', 'Ý', 'Ŷ', 'Ỹ', 'Ȳ', 'Ẏ', 'Ÿ', 'Ỷ', 'Ỵ', 'Ƴ', 'Ɏ', 'Ỿ'],
    SimilarAction.literal "Y"),
  (['Z', 'Ⓩ', 'Ｚ', 'Ź', 'Ẑ', 'Ż', 'Ž', 'Ẓ', 'Ẕ', 'Ƶ', 'Ȥ', 'Ɀ', 'Ⱬ', 'Ꝣ'],
    SimilarAction.literal "Z"),
  (['a', 'ⓐ', 'ａ', 'ẚ', 'à', 'á', 'â', 'ầ', 'ấ', 'ẫ', 'ẩ', 'ã', 'ā', 'ă', 'ằ', 'ắ', 'ẵ', 'ẳ',
    'ȧ', 'ǡ', 'ä', 'ǟ', 'ả', 'å', 'ǻ', 'ǎ', 'ȁ', 'ȃ', 'ạ', 'ậ', 'ặ', 'ḁ', 'ą', 'ⱥ', 'ɐ'],
    SimilarAction.literal "a"),
  (['ꜳ'], SimilarAction.literal "aa"),
  (['æ', 'ǽ', 'ǣ'], SimilarAction.literal "a"),
  (['ꜵ'], SimilarAction.literal "ao"),
  (['ꜷ'], SimilarAction.literal "au"),
  (['ꜹ', 'ꜻ'], SimilarAction.literal "av"),
  (['ꜽ'], SimilarAction.literal "ay"),
  (['b', 'ⓑ', 'ｂ', 'ḃ', 'ḅ', 'ḇ', 'ƀ', 'ƃ', 'ɓ', 'þ'], SimilarAction.literal "b"),
  (['c', 'ⓒ', 'ｃ', 'ć', 'ĉ', 'ċ', 'č', 'ç', 'ḉ', 'ƈ', 'ȼ', 'ꜿ', 'ↄ'], SimilarAction.literal "c"),
  (['d', 'ⓓ', 'ｄ', 'ḋ', 'ď', 'ḍ', 'ḑ', 'ḓ', 'ḏ', 'đ', 'ƌ', 'ɖ', 'ɗ', 'ꝺ'],
    SimilarAction.literal "d"),
  (['ǳ', 'ǆ'], SimilarAction.literal "dz"),
  (['e', 'ⓔ', 'ｅ', 'è', 'é', 'ê', 'ề', 'ế', 'ễ', 'ể', 'ẽ', 'ē', 'ḕ', 'ḗ', 'ĕ', 'ė', 'ë', 'ẻ',
    'ě', 'ȅ', 'ȇ', 'ẹ', 'ệ', 'ȩ', 'ḝ', 'ę', 'ḙ', 'ḛ', 'ɇ', 'ɛ', 'ǝ'], SimilarAction.literal "e"),
  (['f', 'ⓕ', 'ｆ', 'ḟ', 'ƒ', 'ꝼ'], SimilarAction.literal "f"),
  (['g', 'ⓖ', 'ｇ', 'ǵ', 'ĝ', 'ḡ', 'ğ', 'ġ', 'ǧ', 'ģ', 'ǥ', 'ɠ', 'ꞡ', 'ᵹ', 'ꝿ'],
    SimilarAction.literal "g"),
  (['h', 'ⓗ', 'ｈ', 'ĥ', 'ḣ', 'ḧ', 'ȟ', 'ḥ', 'ḩ', 'ḫ', 'ẖ', 'ħ', 'ⱨ', 'ⱶ', 'ɥ'],
    SimilarAction.literal "h"),
  (['ƕ'], SimilarAction.literal "hv"),
  (['i', 'ⓘ', 'ｉ', 'ì', 'í', 'î', 'ĩ', 'ī', 'ĭ', 'ï', 'ḯ', 'ỉ', 'ǐ', 'ȉ', 'ȋ', 'ị', 'į', 'ḭ',
    'ɨ', 'ı'], SimilarAction.literal "i"),
  (['j', 'ⓙ', 'ｊ', 'ĵ', 'ǰ', 'ɉ'], SimilarAction.literal "j"),
  (['k', 'ⓚ', 'ｋ', 'ḱ', 'ǩ', 'ḳ', 'ķ', 'ḵ', 'ƙ', 'ⱪ', 'ꝁ', 'ꝃ', 'ꝅ', 'ꞣ'],
    SimilarAction.literal "k"),
  (['l', 'ⓛ', 'ｌ', 'ŀ', 'ĺ', 'ľ', 'ḷ', 'ḹ', 'ļ', 'ḽ', 'ḻ', 'ſ', 'ł', 'ƚ', 'ɫ', 'ⱡ', 'ꝉ', 'ꞁ',
    'ꝇ'], SimilarAction.literal "l"),
  (['ǉ'], SimilarAction.literal "lj"),
  (['m', 'ⓜ', 'ｍ', 'ḿ', 'ṁ', 'ṃ', 'ɱ', 'ɯ'], SimilarAction.literal "m"),
  (['n', 'ⓝ', 'ｎ', 'ǹ', 'ń', 'ñ', 'ṅ', 'ň', 'ṇ', 'ņ', 'ṋ', 'ṉ', 'ƞ', 'ɲ', 'ŉ', 'ꞑ', 'ꞥ'],
    SimilarAction.literal "n"),
  (['ǌ'], SimilarAction.literal "nj"),
  (['o', 'ⓞ', 'ｏ', 'ò', 'ó', 'ô', 'ồ', 'ố', 'ỗ', 'ổ', 'õ', 'ṍ', 'ȭ', 'ṏ', 'ō', 'ṑ', 'ṓ', 'ŏ',
    'ȯ', 'ȱ', 'ö', 'ȫ', 'ỏ', 'ő', 'ǒ', 'ȍ', 'ȏ', 'ơ', 'ờ', 'ớ', 'ỡ', 'ở', 'ợ', 'ọ', 'ộ', 'ǫ',
    'ǭ', 'ø', 'ǿ', 'ɔ', 'ꝋ', 'ꝍ', 'ɵ'], SimilarAction.literal "o"),
  (['ƣ'], SimilarAction.literal "oi"),
  (['ȣ'], SimilarAction.literal "ou"),
  (['ꝏ'], SimilarAction.literal "oo"),
  (['p', 'ⓟ', 'ｐ', 'ṕ', 'ṗ', 'ƥ', 'ᵽ', 'ꝑ', 'ꝓ', 'ꝕ'], SimilarAction.literal "p"),
  (['q', 'ⓠ', 'ｑ', 'ɋ', 'ꝗ', 'ꝙ'], SimilarAction.literal "q"),
  (['r', 'ⓡ', 'ｒ', 'ŕ', 'ṙ', 'ř', 'ȑ', 'ȓ', 'ṛ', 'ṝ', 'ŗ', 'ṟ', 'ɍ', 'ɽ', 'ꝛ', 'ꞧ', 'ꞃ'],
    SimilarAction.literal "r"),
  (['s', 'ⓢ', 'ｓ', 'ß', 'ś', 'ṥ', 'ŝ', 'ṡ', 'š', 'ṧ', 'ṣ', 'ṩ', 'ș', 'ş', 'ȿ', 'ꞩ', 'ꞅ', 'ẛ'],
    SimilarAction.literal "s"),
  (['t', 'ⓣ', 'ｔ', 'ṫ', 'ẗ', 'ť', 'ṭ', 'ț', 'ţ', 'ṱ', 'ṯ', 'ŧ', 'ƭ', 'ʈ', 'ⱦ', 'ꞇ'],
    SimilarAction.literal "t"),
  (['ꜩ'], SimilarAction.literal "tz"),
  (['u', 'ⓤ', 'ｕ', 'ù', 'ú', 'û', 'ũ', 'ṹ', 'ū', 'ṻ', 'ŭ', 'ü', 'ǜ', 'ǘ', 'ǖ', 'ǚ', 'ủ', 'ů',
    'ű', 'ǔ', 'ȕ', 'ȗ', 'ư', 'ừ', 'ứ', 'ữ', 'ử', 'ự', 'ụ', 'ṳ', 'ų', 'ṷ', 'ṵ', 'ʉ'],
    SimilarAction.literal "u"),
  (['v', 'ⓥ', 'ｖ', 'ṽ', 'ṿ', 'ʋ', 'ꝟ', 'ʌ'], SimilarAction.literal "v"),
  (['ꝡ'], SimilarAction.literal "vy"),
  (['w', 'ⓦ', 'ｗ', 'ẁ', 'ẃ', 'ŵ', 'ẇ', 'ẅ', 'ẘ', 'ẉ', 'ⱳ'], SimilarAction.literal "w"),
  (['x', 'ⓧ', 'ｘ', 'ẋ', 'ẍ'], SimilarAction.literal "x"),
  (['y', 'ⓨ', 'ｙ', 'ỳ', 'ý', 'ŷ', 'ỹ', 'ȳ', 'ẏ', 'ÿ', 'ỷ', 'ẙ', 'ỵ', 'ƴ', 'ɏ', 'ỿ'],
    SimilarAction.literal "y"),
  (['z', 'ⓩ', 'ｚ', 'ź', 'ẑ', 'ż', 'ž', 'ẓ', 'ẕ', 'ƶ', 'ȥ', 'ɀ', 'ⱬ', 'ꝣ'],
    SimilarAction.literal "z"),
  (['–'], SimilarAction.hyphenLike)]

/-- Arm dispatch of the character match inside `check_similar`
(src/src/lib.rs lines 252-412): the combining-mark range arm (hoisted into
`is_combining`, see there) gives `silent`, a hit in the first matching table
arm gives that arm action, and the source wildcard arm gives
`unrecognized`.  `find?` returns the first matching entry, as a top-down
match does. -/
def classify (one_char : Char) : SimilarAction :=
  if is_combining one_char then SimilarAction.silent
  else
    match similar_table.find? (fun e => e.1.contains one_char) with
    | some e => e.2
    | none => SimilarAction.unrecognized

/-- Model of `check_similar` (src/src/lib.rs lines 250-417).  The source
mutates `name_acc` in place and returns the new "last was underscore" flag;
here the updated accumulator is returned alongside the flag.  `none` (an
undecodable scalar) skips the whole `if let` and returns `false` with no
emission; each match arm only appends a fixed string, so routing the arm
through `classify` and appending here is behaviour-identical. -/
def check_similar (curr_char : Option Char) (name_acc : String) (last_was_under : Bool) :
    String × Bool :=
  match curr_char with
  | none => (name_acc, false)
  | some one_char =>
    match classify one_char with
    | SimilarAction.literal s => (name_acc ++ s, false)
    | SimilarAction.silent => (name_acc, false)
    | SimilarAction.hyphenLike => (name_acc.push '-', false)
    | SimilarAction.unrecognized =>
        (if !last_was_under then name_acc.push '_' else name_acc, true)

/-- Model of `convert_four_to_u32` (src/src/lib.rs lines 421-431). -/
def convert_four_to_u32 (first_byte second_byte third_byte fourth_byte : Nat) : Nat :=
  ((first_byte &&& 0b00000111) <<< 18) ||| ((second_byte &&& 0b00111111) <<< 12)
    ||| ((third_byte &&& 0b00111111) <<< 6) ||| (fourth_byte &&& 0b00111111)

/-- Model of `convert_three_to_u32` (src/src/lib.rs lines 435-439); the
source masks the leading byte with `0b0001_1111`, reproduced as written. -/
def convert_three_to_u32 (first_byte second_byte third_byte : Nat) : Nat :=
  ((first_byte &&& 0b00011111) <<< 12) ||| ((second_byte &&& 0b00111111) <<< 6)
    ||| (third_byte &&& 0b00111111)

/-- Model of `convert_two_to_u32` (src/src/lib.rs lines 443-445). -/
def convert_two_to_u32 (first_byte second_byte : Nat) : Nat :=
  ((first_byte &&& 0b00011111) <<< 6) ||| (second_byte &&& 0b00111111)

/-- Model of `std::char::from_u32`: `some` exactly when the value is a
Unicode scalar value (below the surrogate block, or between the surrogates
and 0x110000), `none` otherwise. -/
def char_from_u32 (n : Nat) : Option Char :=
  if n < 0xD800 ∨ (0xDFFF < n ∧ n < 0x110000) then some (Char.ofNat n) else none

/-- Model of `push_underscore_if` (src/src/lib.rs lines 242-246). -/
def push_underscore_if (stri : String) (to_push : Char) (condition : Bool) : String :=
  if condition then stri.push to_push else stri

/-- Loop state of `clean_name` (src/src/lib.rs lines 449-524): the output
accumulator `new_name`, the pending multi-byte buffer (the source pair
`vec_grapheme` array + `idx_grapheme` index is modelled as the list of the
`idx_grapheme` filled slots), and the `last_was_underscore` flag. -/
structure CleanState where
  new_name : String
  vec_grapheme : List Nat
  last_was_underscore : Bool
deriving DecidableEq, Repr

/-- One iteration of the byte loop of `clean_name` (src/src/lib.rs lines
455-522), transcribed branch for branch: the ASCII-policy match runs when
the buffer is empty and the byte is below 128; otherwise the byte is
appended to the buffer, and a 2-, 3- or 4-byte sequence is decoded and
routed through `check_similar` exactly when the source length test fires. -/
def clean_step (s : CleanState) (byte : Nat) : CleanState :=
  if s.vec_grapheme = [] ∧ byte < 128 then
    if byte ≤ 44 then
      { s with new_name := push_underscore_if s.new_name '_' (!s.last_was_underscore),
               last_was_underscore := true }
    else if byte = 46 then
      { s with new_name := s.new_name.push '.', last_was_underscore := false }
    else if byte = 47 then
      { s with new_name := push_underscore_if s.new_name '_' (!s.last_was_underscore),
               last_was_underscore := true }
    else if 58 ≤ byte ∧ byte ≤ 64 then
      { s with new_name := push_underscore_if s.new_name '_' (!s.last_was_underscore),
               last_was_underscore := true }
    else if 91 ≤ byte ∧ byte ≤ 96 then
      { s with new_name := push_underscore_if s.new_name '_' (!s.last_was_underscore),
               last_was_underscore := true }
    else if 123 ≤ byte ∧ byte ≤ 127 then
      { s with new_name := push_underscore_if s.new_name '_' (!s.last_was_underscore),
               last_was_underscore := true }
    else
      { s with new_name := s.new_name.push (Char.ofNat byte), last_was_underscore := false }
  else
    let buf := s.vec_grapheme ++ [byte]
    let first_byte := buf.headD 0
    if 240 ≤ first_byte ∧ buf.length = 4 then
      let curr_char := char_from_u32 (convert_four_to_u32 (buf.getD 0 0) (buf.getD 1 0)
        (buf.getD 2 0) (buf.getD 3 0))
      let r := check_similar curr_char s.new_name s.last_was_underscore
      { new_name := r.1, vec_grapheme := [], last_was_underscore := r.2 }
    else if (224 ≤ first_byte ∧ first_byte < 240) ∧ buf.length = 3 then
      let curr_char := char_from_u32 (convert_three_to_u32 (buf.getD 0 0) (buf.getD 1 0)
        (buf.getD 2 0))
      let r := check_similar curr_char s.new_name s.last_was_underscore
      { new_name := r.1, vec_grapheme := [], last_was_underscore := r.2 }
    else if (128 ≤ first_byte ∧ first_byte < 224) ∧ buf.length = 2 then
      let curr_char := char_from_u32 (convert_two_to_u32 (buf.getD 0 0) (buf.getD 1 0))
      let r := check_similar curr_char s.new_name s.last_was_underscore
      { new_name := r.1, vec_grapheme := [], last_was_underscore := r.2 }
    else
      { s with vec_grapheme := buf }

/-- Initial loop state of `clean_name`: empty output, empty buffer,
`last_was_underscore = false`. -/
def cleanInit : CleanState := { new_name := "", vec_grapheme := [], last_was_underscore := false }

/-- Model of `clean_name` (src/src/lib.rs lines 449-524): fold the byte loop
over the raw component bytes and return the accumulated output (the unused
`_options` parameter of the source is omitted; trailing buffered bytes are
discarded, as in the source). -/
def clean_name (path : List Nat) : String :=
  (path.foldl clean_step cleanInit).new_name


/-- Byte ranges of the ASCII policy in `clean_name` that collapse to an
underscore (the match arms `0..=44`, `47`, `58..=64`, `91..=96`,
`123..=127` at src/src/lib.rs lines 458-481). -/
def collapse_byte (b : Nat) : Prop :=
  b ≤ 44 ∨ b = 47 ∨ (58 ≤ b ∧ b ≤ 64) ∨ (91 ≤ b ∧ b ≤ 96) ∨ (123 ≤ b ∧ b ≤ 127)

instance (b : Nat) : Decidable (collapse_byte b) := by
  unfold collapse_byte
  infer_instance

/-- Total byte length of the multi-byte sequence announced by a leading
byte, as consumed by the loop of `clean_name`: 4 for `first_byte >= 240`,
3 for `224..240`, otherwise 2 (for leading bytes in `128..224`). -/
def required_len (b : Nat) : Nat :=
  if 240 ≤ b then 4 else if 224 ≤ b then 3 else 2

/-- Test for two adjacent underscore characters in a character list;
`has_double_underscore (clean_name bs).data = false` expresses the
SanitizedName invariant of the spec. -/
def has_double_underscore : List Char → Bool
  | [] => false
  | [_] => false
  | a :: b :: rest => (a == '_' && b == '_') || has_double_underscore (b :: rest)

/-- Observer for one loop iteration of `clean_name`: `some oc` exactly when
the iteration completes a 2-, 3- or 4-byte sequence and hands the decoded
value `oc` to `check_similar`; `none` when no decode finishes this
iteration.  The branch conditions mirror `clean_step`. -/
def decoded_scalar (s : CleanState) (byte : Nat) : Option (Option Char) :=
  if s.vec_grapheme = [] ∧ byte < 128 then none
  else
    let buf := s.vec_grapheme ++ [byte]
    let first_byte := buf.headD 0
    if 240 ≤ first_byte ∧ buf.length = 4 then
      some (char_from_u32 (convert_four_to_u32 (buf.getD 0 0) (buf.getD 1 0) (buf.getD 2 0)
        (buf.getD 3 0)))
    else if (224 ≤ first_byte ∧ first_byte < 240) ∧ buf.length = 3 then
      some (char_from_u32 (convert_three_to_u32 (buf.getD 0 0) (buf.getD 1 0) (buf.getD 2 0)))
    else if (128 ≤ first_byte ∧ first_byte < 224) ∧ buf.length = 2 then
      some (char_from_u32 (convert_two_to_u32 (buf.getD 0 0) (buf.getD 1 0)))
    else none

/-- True when the iteration completes a decode that emits nothing and
unconditionally resets `last_was_underscore`: an undecodable sequence
(`char_from_u32` returns `none`) or a combining mark. -/
def silent_decode (s : CleanState) (byte : Nat) : Bool :=
  match decoded_scalar s byte with
  | some none => true
  | some (some c) => is_combining c
  | none => false

/-- True when running the byte list from state `s` ever performs a silent
decode (see `silent_decode`). -/
def has_silent : CleanState → List Nat → Bool
  | _, [] => false
  | s, b :: rest => silent_decode s b || has_silent (clean_step s b) rest

/-- Collapse-triggering unit of input: a single byte in the collapse ranges
of the ASCII policy, or one complete 2-, 3- or 4-byte sequence whose decoded
scalar hits the wildcard (`unrecognized`) arm of the table. -/
def collapse_unit (u : List Nat) : Bool :=
  match u with
  | [b] => decide (collapse_byte b)
  | [b1, b2] => decide (128 ≤ b1 ∧ b1 < 224) &&
      (match char_from_u32 (convert_two_to_u32 b1 b2) with
       | some c => decide (classify c = SimilarAction.unrecognized)
       | none => false)
  | [b1, b2, b3] => decide (224 ≤ b1 ∧ b1 < 240) &&
      (match char_from_u32 (convert_three_to_u32 b1 b2 b3) with
       | some c => decide (classify c = SimilarAction.unrecognized)
       | none => false)
  | [b1, b2, b3, b4] => decide (240 ≤ b1) &&
      (match char_from_u32 (convert_four_to_u32 b1 b2 b3 b4) with
       | some c => decide (classify c = SimilarAction.unrecognized)
       | none => false)
  | _ => false

/-- UTF-8 byte values of a sanitizer output string.  `clean_name` only ever
pushes ASCII characters, whose UTF-8 encoding is the single byte equal to
the code point, so the byte sequence of the `OsString` the source builds is
the list of character codes. -/
def strBytes (s : String) : List Nat := s.data.map Char.toNat

/-- Model of `PathChange` (src/src/lib.rs lines 135-164).  A filesystem path
is modelled as its list of components, each component a raw byte list. -/
inductive PathChange where
  | Unchanged (path : List (List Nat))
  | Changed (path modified : List (List Nat))
  | ErrorRename (path modified : List (List Nat)) (error : String)
  | Error (path : List (List Nat)) (error : String)
deriving DecidableEq, Repr

/-- Model of a path as `clean_path` sees it: parent components plus the
result of `Path::file_name()`, which is `none` when the path has no final
regular component (a filesystem root, or a path ending in `..`). -/
structure ModelPath where
  parent : List (List Nat)
  fileName : Option (List Nat)
deriving DecidableEq, Repr

/-- Component list of a model path (`Path::to_path_buf`). -/
def ModelPath.value (p : ModelPath) : List (List Nat) :=
  match p.fileName with
  | none => p.parent
  | some n => p.parent ++ [n]

/-- Model of `clean_path` (src/src/lib.rs lines 527-561).  The second
component records the rename performed on the filesystem, `none` when no
rename happens (missing file name, unchanged name, or dry run — the source
returns before `std::fs::rename` in those branches).  The model filesystem
always accepts a rename, so the OS-failure `ErrorRename` branch of the
source is not reachable here; `options.dry_run` is passed as the bare
boolean. -/
def clean_path (file_path : ModelPath) (dry_run : Bool) :
    PathChange × Option (List (List Nat) × List (List Nat)) :=
  match file_path.fileName with
  | none => (PathChange.Unchanged file_path.value, none)
  | some file_name =>
    let cleaned_name := strBytes (clean_name file_name)
    if cleaned_name = file_name then
      (PathChange.Unchanged file_path.value, none)
    else
      let cleaned_path := file_path.parent ++ [cleaned_name]
      if dry_run then
        (PathChange.ErrorRename file_path.value cleaned_path "dry-run", none)
      else
        (PathChange.Changed file_path.value cleaned_path,
          some (file_path.value, cleaned_path))

/-- Model of a filesystem subtree: an entry is a plain file or a directory
with its ordered child list (the order `read_dir` yields). -/
inductive Entry where
  | file (name : List Nat)
  | dir (name : List Nat) (children : List Entry)
deriving Repr

/-- Name an entry carries after its `clean_path` visit: the final component
of the new path if the visit renamed it, its old name otherwise. -/
def newNameAfter (name : List Nat) : PathChange → List Nat
  | PathChange.Changed _ modified => modified.getLastD name
  | _ => name

mutual
/-- Model of one walker visit (src/src/lib.rs lines 564-635 for
directories, plus the direct `clean_path` call for non-directories in `run`
and in the entry loop): the outcome list in non-parallel order, together
with the subtree as it stands on the filesystem afterwards.  A directory is
cleaned first; when that rename succeeds the children are listed under the
modified path, exactly as the source reassigns `dir_path`.  Directory
enumeration always succeeds in the model, so the `Error` outcomes of the
source (I/O failures) do not arise. -/
def clean_entry_fs (dry_run : Bool) (parent : List (List Nat)) : Entry → List PathChange × Entry
  | Entry.file name =>
    let res := (clean_path { parent := parent, fileName := some name } dry_run).1
    ([res], Entry.file (newNameAfter name res))
  | Entry.dir name children =>
    let res_dir := (clean_path { parent := parent, fileName := some name } dry_run).1
    let dir_path := match res_dir with
      | PathChange.Changed _ modified => modified
      | _ => parent ++ [name]
    let rest := clean_entries_fs dry_run dir_path children
    (res_dir :: rest.1, Entry.dir (newNameAfter name res_dir) rest.2)

/-- Walker visit of a child list, in order (the non-parallel iteration of
`clean_directory`). -/
def clean_entries_fs (dry_run : Bool) (parent : List (List Nat)) :
    List Entry → List PathChange × List Entry
  | [] => ([], [])
  | e :: rest =>
    let r1 := clean_entry_fs dry_run parent e
    let r2 := clean_entries_fs dry_run parent rest
    (r1.1 ++ r2.1, r1.2 :: r2.2)
end

mutual
/-- Parent path and raw name of every entry of a subtree, parents taken with
their original (pre-walk) names, in visit order. -/
def entriesWithPaths (parent : List (List Nat)) : Entry → List (List (List Nat) × List Nat)
  | Entry.file name => [(parent, name)]
  | Entry.dir name children =>
    (parent, name) :: entriesListWithPaths (parent ++ [name]) children

/-- List version of `entriesWithPaths`. -/
def entriesListWithPaths (parent : List (List Nat)) :
    List Entry → List (List (List Nat) × List Nat)
  | [] => []
  | e :: rest => entriesWithPaths parent e ++ entriesListWithPaths parent rest
end

theorem clean_step_collapse (s : CleanState) (b : Nat) (hbuf : s.vec_grapheme = [])
    (hb : collapse_byte b) :
    clean_step s b =
      { s with new_name := push_underscore_if s.new_name '_' (!s.last_was_underscore),
               last_was_underscore := true } := by
  have hb128 : b < 128 := by rcases hb with h | h | h | h | h <;> omega
  unfold clean_step
  rw [if_pos ⟨hbuf, hb128⟩]
  rcases hb with h | h | h | h | h
  · rw [if_pos h]
  · rw [if_neg (by omega), if_neg (by omega), if_pos h]
  · rw [if_neg (by omega), if_neg (by omega), if_neg (by omega), if_pos h]
  · rw [if_neg (by omega), if_neg (by omega), if_neg (by omega), if_neg (by omega), if_pos h]
  · rw [if_neg (by omega), if_neg (by omega), if_neg (by omega), if_neg (by omega),
      if_neg (by omega), if_pos h]

theorem clean_step_dot (s : CleanState) (hbuf : s.vec_grapheme = []) :
    clean_step s 46 =
      { s with new_name := s.new_name.push '.', last_was_underscore := false } := by
  unfold clean_step
  rw [if_pos ⟨hbuf, by omega⟩, if_neg (by omega), if_pos rfl]

theorem clean_step_literal (s : CleanState) (b : Nat) (hbuf : s.vec_grapheme = [])
    (hb : b < 128) (hnc : ¬ collapse_byte b) (hdot : b ≠ 46) :
    clean_step s b =
      { s with new_name := s.new_name.push (Char.ofNat b), last_was_underscore := false } := by
  unfold collapse_byte at hnc
  push_neg at hnc
  unfold clean_step
  rw [if_pos ⟨hbuf, hb⟩, if_neg (by omega), if_neg hdot, if_neg (by omega), if_neg (by omega),
    if_neg (by omega), if_neg (by omega)]

theorem clean_step_buf_start (s : CleanState) (b : Nat) (hbuf : s.vec_grapheme = [])
    (hb : 128 ≤ b) :
    clean_step s b = { s with vec_grapheme := [b] } := by
  unfold clean_step
  rw [hbuf]
  simp only [List.nil_append]
  rw [if_neg (by rintro ⟨-, h⟩; omega), if_neg (by simp <;> omega), if_neg (by simp <;> omega),
    if_neg (by simp <;> omega)]

theorem clean_step_accum (s : CleanState) (b : Nat) (hne : s.vec_grapheme ≠ [])
    (hfb : 128 ≤ s.vec_grapheme.headD 0)
    (hlen : s.vec_grapheme.length + 1 < required_len (s.vec_grapheme.headD 0)) :
    clean_step s b = { s with vec_grapheme := s.vec_grapheme ++ [b] } := by
  have hpos : 0 < s.vec_grapheme.length := List.length_pos.mpr hne
  have hhead : (s.vec_grapheme ++ [b]).headD 0 = s.vec_grapheme.headD 0 := by
    cases h : s.vec_grapheme with
    | nil => exact absurd h hne
    | cons x xs => simp [h]
  have hlen2 : (s.vec_grapheme ++ [b]).length = s.vec_grapheme.length + 1 := by simp
  unfold clean_step
  rw [if_neg (by simp [hne])]
  unfold required_len at hlen
  by_cases h4 : 240 ≤ s.vec_grapheme.headD 0
  · rw [if_pos h4] at hlen
    rw [if_neg (by rw [hhead, hlen2]; omega), if_neg (by rw [hhead]; omega),
      if_neg (by rw [hhead]; omega)]
  · by_cases h3 : 224 ≤ s.vec_grapheme.headD 0
    · rw [if_neg h4, if_pos h3] at hlen
      rw [if_neg (by rw [hhead]; omega), if_neg (by rw [hhead, hlen2]; omega),
        if_neg (by rw [hhead]; omega)]
    · rw [if_neg h4, if_neg h3] at hlen
      omega

theorem clean_step_complete_two (s : CleanState) (b1 b : Nat)
    (hbuf : s.vec_grapheme = [b1]) (h1 : 128 ≤ b1) (h2 : b1 < 224) :
    clean_step s b =
      { new_name := (check_similar (char_from_u32 (convert_two_to_u32 b1 b))
          s.new_name s.last_was_underscore).1,
        vec_grapheme := [],
        last_was_underscore := (check_similar (char_from_u32 (convert_two_to_u32 b1 b))
          s.new_name s.last_was_underscore).2 } := by
  unfold clean_step
  rw [if_neg (by simp [hbuf])]
  rw [hbuf]
  rw [if_neg (by simp <;> omega), if_neg (by simp <;> omega), if_pos (by simp <;> omega)]
  simp

theorem clean_step_complete_three (s : CleanState) (b1 b2 b : Nat)
    (hbuf : s.vec_grapheme = [b1, b2]) (h1 : 224 ≤ b1) (h2 : b1 < 240) :
    clean_step s b =
      { new_name := (check_similar (char_from_u32 (convert_three_to_u32 b1 b2 b))
          s.new_name s.last_was_underscore).1,
        vec_grapheme := [],
        last_was_underscore := (check_similar (char_from_u32 (convert_three_to_u32 b1 b2 b))
          s.new_name s.last_was_underscore).2 } := by
  unfold clean_step
  rw [if_neg (by simp [hbuf])]
  rw [hbuf]
  rw [if_neg (by simp <;> omega), if_pos (by simp <;> omega)]
  simp

theorem clean_step_complete_four (s : CleanState) (b1 b2 b3 b : Nat)
    (hbuf : s.vec_grapheme = [b1, b2, b3]) (h1 : 240 ≤ b1) :
    clean_step s b =
      { new_name := (check_similar (char_from_u32 (convert_four_to_u32 b1 b2 b3 b))
          s.new_name s.last_was_underscore).1,
        vec_grapheme := [],
        last_was_underscore := (check_similar (char_from_u32 (convert_four_to_u32 b1 b2 b3 b))
          s.new_name s.last_was_underscore).2 } := by
  unfold clean_step
  rw [if_neg (by simp [hbuf])]
  rw [hbuf]
  rw [if_pos (by simp <;> omega)]
  simp

theorem required_len_two (b : Nat) (h1 : 128 ≤ b) (h2 : b < 224) : required_len b = 2 := by
  unfold required_len
  rw [if_neg (by omega), if_neg (by omega)]

theorem required_len_three (b : Nat) (h1 : 224 ≤ b) (h2 : b < 240) : required_len b = 3 := by
  unfold required_len
  rw [if_neg (by omega), if_pos h1]

theorem required_len_four (b : Nat) (h : 240 ≤ b) : required_len b = 4 := by
  unfold required_len
  rw [if_pos h]

/-- C7: sanitizing the raw component "naïve_file:test.txt" (UTF-8 bytes)
produces exactly "naive_file_test.txt": ï folds to i, the underscore byte 95
is collapsed and re-emitted as a single underscore, the colon collapses to
an underscore, and the period stays literal. -/
theorem C7_scenario_a :
    clean_name [110, 97, 195, 175, 118, 101, 95, 102, 105, 108, 101, 58,
      116, 101, 115, 116, 46, 116, 120, 116] = "naive_file_test.txt" := by
  decide

/-- C10: when the path has no extractable final component
(`Path::file_name()` is `none`), `clean_path` returns `Unchanged` with the
original path and performs no rename, whatever the dry-run mode. -/
theorem C10_no_file_name (parent : List (List Nat)) (dry_run : Bool) :
    clean_path { parent := parent, fileName := none } dry_run =
      (PathChange.Unchanged parent, none) := rfl

/-- C2 fails on the code: a combining mark emits nothing but RESETS the
"last was collapse" flag (the source arm falls through to `return false`),
so a collapse byte, U+0300, and another collapse byte yield two underscores
rather than one. -/
theorem C2_counterexample :
    clean_name [47, 204, 128, 47] = "__" ∧ clean_name [47, 204, 128, 47] ≠ "_" ∧
      check_similar (some (Char.ofNat 768)) "_" true = ("_", false) := by
  decide

/-- C2 amended: a decoded scalar in the combining ranges U+0300-U+036F,
U+1AB0-U+1AFF, U+1DC0-U+1DFF emits nothing and resets the "last emission
was a collapse placeholder" flag to false; consequently a collapse byte
followed by such a mark followed by another collapse byte yields two
underscores. -/
theorem C2_amended_combining_resets (c : Char) (acc : String) (last : Bool)
    (h : is_combining c = true) :
    check_similar (some c) acc last = (acc, false) ∧ clean_name [47, 204, 128, 47] = "__" := by
  constructor
  · simp [check_similar, classify, h]
  · decide

theorem C2_amended_witness :
    check_similar (some (Char.ofNat 768)) "x" true = ("x", false) ∧
      clean_name [47, 204, 128, 47] = "__" :=
  C2_amended_combining_resets (Char.ofNat 768) "x" true (by decide)

/-- C3 fails on the code: a malformed three-byte sequence assembling to a
surrogate (not a valid scalar value) makes `char_from_u32` yield `none`,
and `check_similar` then emits NOTHING — no collapse placeholder is
substituted; the whole component sanitizes to the empty string. -/
theorem C3_counterexample :
    clean_name [237, 160, 128] = "" := by
  decide

theorem clean_step_else (s : CleanState) (b : Nat) (hA : ¬(s.vec_grapheme = [] ∧ b < 128)) :
    (∃ oc, decoded_scalar s b = some oc ∧
      clean_step s b =
        { new_name := (check_similar oc s.new_name s.last_was_underscore).1,
          vec_grapheme := [],
          last_was_underscore := (check_similar oc s.new_name s.last_was_underscore).2 }) ∨
      (decoded_scalar s b = none ∧
        clean_step s b = { s with vec_grapheme := s.vec_grapheme ++ [b] }) := by
  by_cases c4 : 240 ≤ (s.vec_grapheme ++ [b]).headD 0 ∧ (s.vec_grapheme ++ [b]).length = 4
  · left
    refine ⟨char_from_u32 (convert_four_to_u32 ((s.vec_grapheme ++ [b]).getD 0 0)
      ((s.vec_grapheme ++ [b]).getD 1 0) ((s.vec_grapheme ++ [b]).getD 2 0)
      ((s.vec_grapheme ++ [b]).getD 3 0)), ?_, ?_⟩
    · simp only [decoded_scalar]
      rw [if_neg hA, if_pos c4]
    · simp only [clean_step]
      rw [if_neg hA, if_pos c4]
  · by_cases c3 : (224 ≤ (s.vec_grapheme ++ [b]).headD 0 ∧ (s.vec_grapheme ++ [b]).headD 0 < 240)
        ∧ (s.vec_grapheme ++ [b]).length = 3
    · left
      refine ⟨char_from_u32 (convert_three_to_u32 ((s.vec_grapheme ++ [b]).getD 0 0)
        ((s.vec_grapheme ++ [b]).getD 1 0) ((s.vec_grapheme ++ [b]).getD 2 0)), ?_, ?_⟩
      · simp only [decoded_scalar]
        rw [if_neg hA, if_neg c4, if_pos c3]
      · simp only [clean_step]
        rw [if_neg hA, if_neg c4, if_pos c3]
    · by_cases c2 : (128 ≤ (s.vec_grapheme ++ [b]).headD 0 ∧ (s.vec_grapheme ++ [b]).headD 0 < 224)
          ∧ (s.vec_grapheme ++ [b]).length = 2
      · left
        refine ⟨char_from_u32 (convert_two_to_u32 ((s.vec_grapheme ++ [b]).getD 0 0)
          ((s.vec_grapheme ++ [b]).getD 1 0)), ?_, ?_⟩
        · simp only [decoded_scalar]
          rw [if_neg hA, if_neg c4, if_neg c3, if_pos c2]
        · simp only [clean_step]
          rw [if_neg hA, if_neg c4, if_neg c3, if_pos c2]
      · right
        refine ⟨?_, ?_⟩
        · simp only [decoded_scalar]
          rw [if_neg hA, if_neg c4, if_neg c3, if_neg c2]
        · simp only [clean_step]
          rw [if_neg hA, if_neg c4, if_neg c3, if_neg c2]

/-- C3 amended: for every malformed multi-byte sequence whose assembled bit
pattern is not a valid scalar value, the sanitizer emits nothing (no
collapse placeholder) and resets the "last was collapse" flag; the decode
never surfaces an error — the fold simply continues.  Stated at machine
level for any loop step that completes a decode yielding the undecodable
sentinel (which covers 2-, 3- and 4-byte sequences), and as end-to-end fold
corollaries for complete 3-byte and 4-byte sequences, the only lengths
whose assembled pattern can be invalid. -/
theorem C3_amended_undecodable_silent :
    (∀ (acc : String) (last : Bool), check_similar none acc last = (acc, false)) ∧
    (∀ (s : CleanState) (b : Nat), decoded_scalar s b = some none →
      clean_step s b =
        { new_name := s.new_name, vec_grapheme := [], last_was_underscore := false }) ∧
    (∀ (acc : String) (last : Bool) (b1 b2 b3 : Nat), 224 ≤ b1 → b1 < 240 →
      char_from_u32 (convert_three_to_u32 b1 b2 b3) = none →
      List.foldl clean_step
        { new_name := acc, vec_grapheme := [], last_was_underscore := last } [b1, b2, b3] =
        { new_name := acc, vec_grapheme := [], last_was_underscore := false }) ∧
    (∀ (acc : String) (last : Bool) (b1 b2 b3 b4 : Nat), 240 ≤ b1 →
      char_from_u32 (convert_four_to_u32 b1 b2 b3 b4) = none →
      List.foldl clean_step
        { new_name := acc, vec_grapheme := [], last_was_underscore := last } [b1, b2, b3, b4] =
        { new_name := acc, vec_grapheme := [], last_was_underscore := false }) := by
  refine ⟨fun acc last => rfl, ?_, ?_, ?_⟩
  · intro s b hdec
    have hA : ¬(s.vec_grapheme = [] ∧ b < 128) := by
      intro hcontra
      unfold decoded_scalar at hdec
      rw [if_pos hcontra] at hdec
      cases hdec
    rcases clean_step_else s b hA with ⟨oc, hdec2, hstep⟩ | ⟨hdec2, hstep⟩
    · rw [hdec2] at hdec
      injection hdec with hoc
      subst hoc
      rw [hstep]
      rfl
    · rw [hdec2] at hdec
      cases hdec
  · intro acc last b1 b2 b3 h1 h2 h
    have hcs : check_similar (char_from_u32 (convert_three_to_u32 b1 b2 b3)) acc last =
        (acc, false) := by
      rw [h]
      rfl
    have e1 : clean_step { new_name := acc, vec_grapheme := [], last_was_underscore := last } b1 =
        { new_name := acc, vec_grapheme := [b1], last_was_underscore := last } := by
      rw [clean_step_buf_start _ b1 rfl (by omega)]
    have e2 : clean_step
        { new_name := acc, vec_grapheme := [b1], last_was_underscore := last } b2 =
        { new_name := acc, vec_grapheme := [b1, b2], last_was_underscore := last } := by
      rw [clean_step_accum _ b2 (by simp) (by simp; omega)
        (by simp [required_len_three b1 h1 h2])]
      rfl
    have e3 : clean_step
        { new_name := acc, vec_grapheme := [b1, b2], last_was_underscore := last } b3 =
        { new_name := acc, vec_grapheme := [], last_was_underscore := false } := by
      rw [clean_step_complete_three _ b1 b2 b3 rfl h1 h2]
      simp [hcs]
    simp only [List.foldl_cons, List.foldl_nil, e1, e2, e3]
  · intro acc last b1 b2 b3 b4 h1 h
    have hcs : check_similar (char_from_u32 (convert_four_to_u32 b1 b2 b3 b4)) acc last =
        (acc, false) := by
      rw [h]
      rfl
    have e1 : clean_step { new_name := acc, vec_grapheme := [], last_was_underscore := last } b1 =
        { new_name := acc, vec_grapheme := [b1], last_was_underscore := last } := by
      rw [clean_step_buf_start _ b1 rfl (by omega)]
    have e2 : clean_step
        { new_name := acc, vec_grapheme := [b1], last_was_underscore := last } b2 =
        { new_name := acc, vec_grapheme := [b1, b2], last_was_underscore := last } := by
      rw [clean_step_accum _ b2 (by simp) (by simp; omega)
        (by simp [required_len_four b1 h1])]
      rfl
    have e3 : clean_step
        { new_name := acc, vec_grapheme := [b1, b2], last_was_underscore := last } b3 =
        { new_name := acc, vec_grapheme := [b1, b2, b3], last_was_underscore := last } := by
      rw [clean_step_accum _ b3 (by simp) (by simp; omega)
        (by simp [required_len_four b1 h1])]
      rfl
    have e4 : clean_step
        { new_name := acc, vec_grapheme := [b1, b2, b3], last_was_underscore := last } b4 =
        { new_name := acc, vec_grapheme := [], last_was_underscore := false } := by
      rw [clean_step_complete_four _ b1 b2 b3 b4 rfl h1]
      simp [hcs]
    simp only [List.foldl_cons, List.foldl_nil, e1, e2, e3, e4]

theorem C3_amended_witness :
    check_similar (char_from_u32 (convert_three_to_u32 237 160 128)) "x" true = ("x", false) ∧
      List.foldl clean_step
        { new_name := "x", vec_grapheme := [], last_was_underscore := true } [237, 160, 128] =
        { new_name := "x", vec_grapheme := [], last_was_underscore := false } ∧
      List.foldl clean_step
        { new_name := "x", vec_grapheme := [], last_was_underscore := true }
          [240, 141, 160, 128] =
        { new_name := "x", vec_grapheme := [], last_was_underscore := false } ∧
      clean_step
          { new_name := "x", vec_grapheme := [240, 141, 160], last_was_underscore := true } 128 =
        { new_name := "x", vec_grapheme := [], last_was_underscore := false } := by
  have h := C3_amended_undecodable_silent
  refine ⟨?_, h.2.2.1 "x" true 237 160 128 (by decide) (by decide) (by decide),
    h.2.2.2 "x" true 240 141 160 128 (by decide) (by decide),
    h.2.1 _ 128 (by decide)⟩
  rw [show char_from_u32 (convert_three_to_u32 237 160 128) = none from by decide]
  exact h.1 "x" true

theorem push_underscore_if_not (acc : String) (last : Bool) :
    push_underscore_if acc '_' (!last) = if last then acc else acc.push '_' := by
  cases last <;> rfl

theorem check_similar_unrec (c : Char) (hcls : classify c = SimilarAction.unrecognized)
    (acc : String) (last : Bool) :
    check_similar (some c) acc last = (if last then acc else acc.push '_', true) := by
  simp only [check_similar]
  rw [hcls]
  cases last <;> rfl

theorem collapse_unit_fold (u : List Nat) (hu : collapse_unit u = true)
    (acc : String) (last : Bool) :
    List.foldl clean_step { new_name := acc, vec_grapheme := [], last_was_underscore := last } u =
      { new_name := if last then acc else acc.push '_', vec_grapheme := [],
        last_was_underscore := true } := by
  match u with
  | [] => simp [collapse_unit] at hu
  | [b] =>
    have hb : collapse_byte b := by simpa [collapse_unit] using hu
    simp only [List.foldl_cons, List.foldl_nil]
    rw [clean_step_collapse _ b rfl hb]
    simp [push_underscore_if_not]
  | [b1, b2] =>
    unfold collapse_unit at hu
    rw [Bool.and_eq_true] at hu
    obtain ⟨hr, hcls⟩ := hu
    rw [decide_eq_true_iff] at hr
    cases hoc : char_from_u32 (convert_two_to_u32 b1 b2) with
    | none => rw [hoc] at hcls; simp at hcls
    | some c =>
      rw [hoc, decide_eq_true_iff] at hcls
      have e1 : clean_step
          { new_name := acc, vec_grapheme := [], last_was_underscore := last } b1 =
          { new_name := acc, vec_grapheme := [b1], last_was_underscore := last } := by
        rw [clean_step_buf_start _ b1 rfl (by omega)]
      have e2 : clean_step
          { new_name := acc, vec_grapheme := [b1], last_was_underscore := last } b2 =
          { new_name := if last then acc else acc.push '_', vec_grapheme := [],
            last_was_underscore := true } := by
        rw [clean_step_complete_two _ b1 b2 rfl (by omega) (by omega), hoc,
          check_similar_unrec c hcls]
      simp only [List.foldl_cons, List.foldl_nil, e1, e2]
  | [b1, b2, b3] =>
    unfold collapse_unit at hu
    rw [Bool.and_eq_true] at hu
    obtain ⟨hr, hcls⟩ := hu
    rw [decide_eq_true_iff] at hr
    cases hoc : char_from_u32 (convert_three_to_u32 b1 b2 b3) with
    | none => rw [hoc] at hcls; simp at hcls
    | some c =>
      rw [hoc, decide_eq_true_iff] at hcls
      have e1 : clean_step
          { new_name := acc, vec_grapheme := [], last_was_underscore := last } b1 =
          { new_name := acc, vec_grapheme := [b1], last_was_underscore := last } := by
        rw [clean_step_buf_start _ b1 rfl (by omega)]
      have e2 : clean_step
          { new_name := acc, vec_grapheme := [b1], last_was_underscore := last } b2 =
          { new_name := acc, vec_grapheme := [b1, b2], last_was_underscore := last } := by
        rw [clean_step_accum _ b2 (by simp) (by simp; omega)
          (by simp [required_len_three b1 (by omega) (by omega)])]
        rfl
      have e3 : clean_step
          { new_name := acc, vec_grapheme := [b1, b2], last_was_underscore := last } b3 =
          { new_name := if last then acc else acc.push '_', vec_grapheme := [],
            last_was_underscore := true } := by
        rw [clean_step_complete_three _ b1 b2 b3 rfl (by omega) (by omega), hoc,
          check_similar_unrec c hcls]
      simp only [List.foldl_cons, List.foldl_nil, e1, e2, e3]
  | [b1, b2, b3, b4] =>
    unfold collapse_unit at hu
    rw [Bool.and_eq_true] at hu
    obtain ⟨hr, hcls⟩ := hu
    rw [decide_eq_true_iff] at hr
    cases hoc : char_from_u32 (convert_four_to_u32 b1 b2 b3 b4) with
    | none => rw [hoc] at hcls; simp at hcls
    | some c =>
      rw [hoc, decide_eq_true_iff] at hcls
      have e1 : clean_step
          { new_name := acc, vec_grapheme := [], last_was_underscore := last } b1 =
          { new_name := acc, vec_grapheme := [b1], last_was_underscore := last } := by
        rw [clean_step_buf_start _ b1 rfl (by omega)]
      have e2 : clean_step
          { new_name := acc, vec_grapheme := [b1], last_was_underscore := last } b2 =
          { new_name := acc, vec_grapheme := [b1, b2], last_was_underscore := last } := by
        rw [clean_step_accum _ b2 (by simp) (by simp; omega)
          (by simp [required_len_four b1 (by omega)])]
        rfl
      have e3 : clean_step
          { new_name := acc, vec_grapheme := [b1, b2], last_was_underscore := last } b3 =
          { new_name := acc, vec_grapheme := [b1, b2, b3], last_was_underscore := last } := by
        rw [clean_step_accum _ b3 (by simp) (by simp; omega)
          (by simp [required_len_four b1 (by omega)])]
        rfl
      have e4 : clean_step
          { new_name := acc, vec_grapheme := [b1, b2, b3], last_was_underscore := last } b4 =
          { new_name := if last then acc else acc.push '_', vec_grapheme := [],
            last_was_underscore := true } := by
        rw [clean_step_complete_four _ b1 b2 b3 b4 rfl (by omega), hoc,
          check_similar_unrec c hcls]
      simp only [List.foldl_cons, List.foldl_nil, e1, e2, e3, e4]
  | b1 :: b2 :: b3 :: b4 :: b5 :: rest => simp [collapse_unit] at hu

theorem collapse_units_keep (us : List (List Nat)) (hall : us.all collapse_unit = true)
    (acc : String) :
    List.foldl clean_step
      { new_name := acc, vec_grapheme := [], last_was_underscore := true } us.flatten =
      { new_name := acc, vec_grapheme := [], last_was_underscore := true } := by
  induction us with
  | nil => rfl
  | cons u rest ih =>
    rw [List.all_cons, Bool.and_eq_true] at hall
    rw [List.flatten_cons, List.foldl_append, collapse_unit_fold u hall.1 acc true]
    simpa using ih hall.2

/-- C4: a run of k >= 1 consecutive collapse-triggering inputs — each unit a
single byte in the ranges 0-44, 47, 58-64, 91-96, 123-127, or a complete
multi-byte sequence whose decoded scalar hits the wildcard (`unrecognized`)
arm of the table — emits exactly one underscore for the whole run,
regardless of k: from any sequence-boundary state whose previous emission
was not a collapse placeholder, the fold appends exactly one underscore,
and `clean_name` of the bare run is the one-underscore string. -/
theorem C4_collapse_run_single_underscore (us : List (List Nat)) (acc : String)
    (hne : us ≠ []) (hall : us.all collapse_unit = true) :
    List.foldl clean_step
      { new_name := acc, vec_grapheme := [], last_was_underscore := false } us.flatten =
      { new_name := acc.push '_', vec_grapheme := [], last_was_underscore := true } ∧
    clean_name us.flatten = "_" := by
  have main : ∀ a : String,
      List.foldl clean_step
        { new_name := a, vec_grapheme := [], last_was_underscore := false } us.flatten =
        { new_name := a.push '_', vec_grapheme := [], last_was_underscore := true } := by
    intro a
    match us with
    | [] => exact absurd rfl hne
    | u :: rest =>
      rw [List.all_cons, Bool.and_eq_true] at hall
      rw [List.flatten_cons, List.foldl_append, collapse_unit_fold u hall.1 a false]
      simpa using collapse_units_keep rest hall.2 (a.push '_')
  refine ⟨main acc, ?_⟩
  show (List.foldl clean_step cleanInit us.flatten).new_name = "_"
  rw [show cleanInit =
    { new_name := "", vec_grapheme := [], last_was_underscore := false } from rfl, main ""]
  rfl

theorem C4_witness :
    List.foldl clean_step
      { new_name := "x", vec_grapheme := [], last_was_underscore := false }
      ([[47], [226, 130, 172], [0]] : List (List Nat)).flatten =
      { new_name := "x_", vec_grapheme := [], last_was_underscore := true } ∧
    clean_name ([[47], [226, 130, 172], [0]] : List (List Nat)).flatten = "_" :=
  C4_collapse_run_single_underscore [[47], [226, 130, 172], [0]] "x" (by decide) (by decide)

/-- C8: the en-dash U+2013 (UTF-8 bytes 226, 128, 147) always emits a
literal ASCII hyphen and clears the "last was collapse" state, and it is
never merged with an adjacent collapse placeholder: a collapse byte, then
U+2013, then another collapse byte sanitize to exactly the three characters
underscore, hyphen, underscore. -/
theorem C8_en_dash_exception (acc : String) (last : Bool) (b1 b2 : Nat)
    (hb1 : collapse_byte b1) (hb2 : collapse_byte b2) :
    List.foldl clean_step
      { new_name := acc, vec_grapheme := [], last_was_underscore := last } [226, 128, 147] =
      { new_name := acc.push '-', vec_grapheme := [], last_was_underscore := false } ∧
    clean_name [b1, 226, 128, 147, b2] = "_-_" := by
  have hch : char_from_u32 (convert_three_to_u32 226 128 147) = some (Char.ofNat 8211) := by
    decide
  have harm : ∀ (a : String) (l : Bool),
      check_similar (some (Char.ofNat 8211)) a l = (a.push '-', false) := fun a l => rfl
  have hdash : ∀ (a : String) (l : Bool),
      List.foldl clean_step
        { new_name := a, vec_grapheme := [], last_was_underscore := l } [226, 128, 147] =
        { new_name := a.push '-', vec_grapheme := [], last_was_underscore := false } := by
    intro a l
    have e1 : clean_step { new_name := a, vec_grapheme := [], last_was_underscore := l } 226 =
        { new_name := a, vec_grapheme := [226], last_was_underscore := l } := by
      rw [clean_step_buf_start _ 226 rfl (by omega)]
    have e2 : clean_step { new_name := a, vec_grapheme := [226], last_was_underscore := l } 128 =
        { new_name := a, vec_grapheme := [226, 128], last_was_underscore := l } := by
      rw [clean_step_accum _ 128 (by simp) (by simp) (by simp [required_len])]
      rfl
    have e3 : clean_step
        { new_name := a, vec_grapheme := [226, 128], last_was_underscore := l } 147 =
        { new_name := a.push '-', vec_grapheme := [], last_was_underscore := false } := by
      rw [clean_step_complete_three _ 226 128 147 rfl (by omega) (by omega), hch, harm]
    simp only [List.foldl_cons, List.foldl_nil, e1, e2, e3]
  refine ⟨hdash acc last, ?_⟩
  have s1 : List.foldl clean_step cleanInit [b1] =
      { new_name := "_", vec_grapheme := [], last_was_underscore := true } := by
    simp only [List.foldl_cons, List.foldl_nil]
    rw [clean_step_collapse cleanInit b1 rfl hb1]
    rfl
  have s3 : clean_step { new_name := "_-", vec_grapheme := [], last_was_underscore := false } b2 =
      { new_name := "_-_", vec_grapheme := [], last_was_underscore := true } := by
    rw [clean_step_collapse _ b2 rfl hb2]
    rfl
  show (List.foldl clean_step cleanInit [b1, 226, 128, 147, b2]).new_name = "_-_"
  rw [show ([b1, 226, 128, 147, b2] : List Nat) = [b1] ++ [226, 128, 147] ++ [b2] from rfl,
    List.foldl_append, List.foldl_append, s1, hdash "_" true,
    show ("_" : String).push '-' = "_-" from rfl]
  simp only [List.foldl_cons, List.foldl_nil, s3]

theorem C8_witness :
    List.foldl clean_step
      { new_name := "x", vec_grapheme := [], last_was_underscore := true } [226, 128, 147] =
      { new_name := "x-", vec_grapheme := [], last_was_underscore := false } ∧
    clean_name [0, 226, 128, 147, 127] = "_-_" :=
  C8_en_dash_exception "x" true 0 127 (by decide) (by decide)

theorem char_ofNat_toNat (b : Nat) (hb : b < 128) : (Char.ofNat b).toNat = b := by
  unfold Char.ofNat
  rw [dif_pos (Or.inl (by omega : b < 0xD800))]
  simp [Char.ofNatAux, Char.toNat]
  rfl

theorem char_ofNat_ne_underscore (b : Nat) (hb : b < 128) (hne : b ≠ 95) :
    Char.ofNat b ≠ '_' := by
  intro h
  have h2 : (Char.ofNat b).toNat = 95 := by rw [h]; rfl
  rw [char_ofNat_toNat b hb] at h2
  exact hne h2

theorem hdu_append_single (l : List Char) (c : Char)
    (h : has_double_underscore l = false)
    (hor : c ≠ '_' ∨ l.getLast? ≠ some '_') :
    has_double_underscore (l ++ [c]) = false := by
  induction l with
  | nil => rfl
  | cons a rest ih =>
    cases rest with
    | nil =>
      show ((a == '_' && c == '_') || has_double_underscore [c]) = false
      rw [show has_double_underscore [c] = false from rfl, Bool.or_false]
      rcases hor with hc | hl
      · simp [hc]
      · have ha : a ≠ '_' := by simpa [List.getLast?] using hl
        simp [ha]
    | cons r0 rs =>
      have hsplit : (a == '_' && r0 == '_') = false ∧
          has_double_underscore (r0 :: rs) = false := by
        have hh : ((a == '_' && r0 == '_') || has_double_underscore (r0 :: rs)) = false := h
        exact ⟨(Bool.or_eq_false_iff.mp hh).1, (Bool.or_eq_false_iff.mp hh).2⟩
      have hl' : c ≠ '_' ∨ (r0 :: rs).getLast? ≠ some '_' := by
        rcases hor with hc | hl
        · exact Or.inl hc
        · right
          simpa [List.getLast?_cons_cons] using hl
      show ((a == '_' && r0 == '_') || has_double_underscore (r0 :: rs ++ [c])) = false
      rw [Bool.or_eq_false_iff]
      exact ⟨hsplit.1, ih hsplit.2 hl'⟩

theorem hdu_append_no_underscore (m l : List Char)
    (h : has_double_underscore l = false) (hm : ∀ ch ∈ m, ch ≠ '_') :
    has_double_underscore (l ++ m) = false := by
  induction m generalizing l with
  | nil => simpa using h
  | cons c ms ih =>
    rw [show l ++ c :: ms = (l ++ [c]) ++ ms by simp]
    exact ih (l ++ [c]) (hdu_append_single l c h (Or.inl (hm c (by simp))))
      (fun ch hch => hm ch (by simp [hch]))

theorem similar_table_entries_ok :
    similar_table.all (fun e => match e.2 with
      | SimilarAction.literal s =>
          decide (s.data ≠ []) && decide (s.data.getLast? ≠ some '_') &&
            s.data.all (fun ch => decide (ch ≠ '_'))
      | SimilarAction.silent => false
      | SimilarAction.hyphenLike => true
      | SimilarAction.unrecognized => true) = true := by
  decide

theorem classify_literal_ok (c : Char) (s : String)
    (h : classify c = SimilarAction.literal s) :
    s.data ≠ [] ∧ s.data.getLast? ≠ some '_' ∧ ∀ ch ∈ s.data, ch ≠ '_' := by
  unfold classify at h
  by_cases hcomb : is_combining c = true
  · rw [if_pos hcomb] at h
    cases h
  · rw [if_neg hcomb] at h
    cases hf : similar_table.find? (fun e => e.1.contains c) with
    | none => rw [hf] at h; cases h
    | some e =>
      rw [hf] at h
      have h2 : e.2 = SimilarAction.literal s := h
      have hmem : e ∈ similar_table := List.mem_of_find?_eq_some hf
      have hok := List.all_eq_true.mp similar_table_entries_ok e hmem
      rw [h2] at hok
      simp only [Bool.and_eq_true, decide_eq_true_iff, List.all_eq_true] at hok
      exact ⟨hok.1.1, hok.1.2, fun ch hch => hok.2 ch hch⟩

theorem classify_not_silent (c : Char) (hcomb : is_combining c = false) :
    classify c ≠ SimilarAction.silent := by
  unfold classify
  rw [hcomb]
  rw [if_neg (by simp)]
  cases hf : similar_table.find? (fun e => e.1.contains c) with
  | none => simp
  | some e =>
    have hmem : e ∈ similar_table := List.mem_of_find?_eq_some hf
    have hok := List.all_eq_true.mp similar_table_entries_ok e hmem
    intro h
    have h2 : e.2 = SimilarAction.silent := h
    rw [h2] at hok
    cases hok

theorem check_similar_inv (c : Char) (acc : String) (last : Bool)
    (h1 : has_double_underscore acc.data = false)
    (h2 : acc.data.getLast? = some '_' → last = true)
    (hcomb : is_combining c = false) :
    has_double_underscore (check_similar (some c) acc last).1.data = false ∧
      ((check_similar (some c) acc last).1.data.getLast? = some '_' →
        (check_similar (some c) acc last).2 = true) := by
  cases hclass : classify c with
  | silent => exact absurd hclass (classify_not_silent c hcomb)
  | literal s =>
    obtain ⟨hne, hlast, hall⟩ := classify_literal_ok c s hclass
    have he : check_similar (some c) acc last = (acc ++ s, false) := by
      simp only [check_similar]
      rw [hclass]
    rw [he]
    refine ⟨?_, ?_⟩
    · rw [String.data_append]
      exact hdu_append_no_underscore s.data acc.data h1 hall
    · intro hu
      rw [String.data_append, List.getLast?_append] at hu
      cases hsd : s.data.getLast? with
      | none => exact absurd (List.getLast?_eq_none_iff.mp hsd) hne
      | some x =>
        rw [hsd] at hu
        exact absurd (hsd.trans hu) hlast
  | hyphenLike =>
    have he : check_similar (some c) acc last = (acc.push '-', false) := by
      simp only [check_similar]
      rw [hclass]
    rw [he]
    refine ⟨?_, ?_⟩
    · rw [String.data_push]
      exact hdu_append_single _ _ h1 (Or.inl (by decide))
    · intro hu
      rw [String.data_push, List.getLast?_append] at hu
      simp at hu
  | unrecognized =>
    rw [check_similar_unrec c hclass]
    cases hl : last
    · refine ⟨?_, fun _ => rfl⟩
      show has_double_underscore (acc.push '_').data = false
      rw [String.data_push]
      refine hdu_append_single _ _ h1 (Or.inr fun he => ?_)
      rw [h2 he] at hl
      cases hl
    · exact ⟨by simpa using h1, fun _ => rfl⟩

theorem collapse_emit_hdu (acc : String) (last : Bool)
    (h1 : has_double_underscore acc.data = false)
    (h2 : acc.data.getLast? = some '_' → last = true) :
    has_double_underscore (push_underscore_if acc '_' (!last)).data = false := by
  cases hl : last
  · show has_double_underscore (acc.push '_').data = false
    rw [String.data_push]
    refine hdu_append_single _ _ h1 (Or.inr fun he => ?_)
    rw [h2 he] at hl
    cases hl
  · exact h1

theorem clean_step_inv (s : CleanState) (b : Nat)
    (h1 : has_double_underscore s.new_name.data = false)
    (h2 : s.new_name.data.getLast? = some '_' → s.last_was_underscore = true)
    (hs : silent_decode s b = false) :
    has_double_underscore (clean_step s b).new_name.data = false ∧
      ((clean_step s b).new_name.data.getLast? = some '_' →
        (clean_step s b).last_was_underscore = true) := by
  by_cases hA : s.vec_grapheme = [] ∧ b < 128
  · by_cases hcb : collapse_byte b
    · rw [clean_step_collapse s b hA.1 hcb]
      exact ⟨collapse_emit_hdu s.new_name s.last_was_underscore h1 h2, fun _ => rfl⟩
    · by_cases hdot : b = 46
      · subst hdot
        rw [clean_step_dot s hA.1]
        refine ⟨?_, ?_⟩
        · show has_double_underscore (s.new_name.push '.').data = false
          rw [String.data_push]
          exact hdu_append_single _ _ h1 (Or.inl (by decide))
        · intro hu
          have hu2 : (s.new_name.push '.').data.getLast? = some '_' := hu
          rw [String.data_push, List.getLast?_append] at hu2
          simp at hu2
      · rw [clean_step_literal s b hA.1 hA.2 hcb hdot]
        have hb95 : b ≠ 95 := by
          intro hb
          subst hb
          exact hcb (by unfold collapse_byte; omega)
        refine ⟨?_, ?_⟩
        · show has_double_underscore (s.new_name.push (Char.ofNat b)).data = false
          rw [String.data_push]
          exact hdu_append_single _ _ h1
            (Or.inl (char_ofNat_ne_underscore b hA.2 hb95))
        · intro hu
          have hu2 : (s.new_name.push (Char.ofNat b)).data.getLast? = some '_' := hu
          rw [String.data_push, List.getLast?_append] at hu2
          have hu3 : Char.ofNat b = '_' := by simpa using hu2
          exact absurd hu3 (char_ofNat_ne_underscore b hA.2 hb95)
  · rcases clean_step_else s b hA with ⟨oc, hdec, hstep⟩ | ⟨hdec, hstep⟩
    · unfold silent_decode at hs
      rw [hdec] at hs
      cases oc with
      | none => simp at hs
      | some c =>
        have hcomb : is_combining c = false := hs
        rw [hstep]
        exact check_similar_inv c s.new_name s.last_was_underscore h1 h2 hcomb
    · rw [hstep]
      exact ⟨h1, h2⟩

theorem clean_fold_inv (bytes : List Nat) (s : CleanState)
    (h1 : has_double_underscore s.new_name.data = false)
    (h2 : s.new_name.data.getLast? = some '_' → s.last_was_underscore = true)
    (hs : has_silent s bytes = false) :
    has_double_underscore ((bytes.foldl clean_step s).new_name).data = false := by
  induction bytes generalizing s with
  | nil => simpa using h1
  | cons b rest ih =>
    unfold has_silent at hs
    rw [Bool.or_eq_false_iff] at hs
    have step := clean_step_inv s b h1 h2 hs.1
    exact ih (clean_step s b) step.1 step.2 hs.2

/-- C1 fails on the code: a silent decode (here the combining mark U+0300)
resets the collapse-deduplication flag without emitting anything, so the
sanitized name CAN contain two consecutive underscores. -/
theorem C1_counterexample :
    has_double_underscore (clean_name [0, 204, 128, 0]).data = true ∧
      clean_name [0, 204, 128, 0] = "__" := by
  decide

/-- C1 amended: for every raw path component whose processing never
performs a silent decode (no decoded combining mark and no undecodable
sequence — see `silent_decode`), the sanitized name produced by
`clean_name` never contains two consecutive underscore characters. -/
theorem C1_amended_no_double_underscore (bytes : List Nat)
    (h : has_silent cleanInit bytes = false) :
    has_double_underscore (clean_name bytes).data = false :=
  clean_fold_inv bytes cleanInit rfl (fun he => absurd he (by decide)) h

theorem C1_amended_witness :
    has_silent cleanInit [110, 97, 195, 175, 47, 47, 98] = false ∧
      has_double_underscore (clean_name [110, 97, 195, 175, 47, 47, 98]).data = false :=
  ⟨by decide, C1_amended_no_double_underscore [110, 97, 195, 175, 47, 47, 98] (by decide)⟩

theorem buf_accum_incomplete (rest : List Nat) (acc : String) (last : Bool) (taken : List Nat)
    (hne : taken ≠ []) (hfb : 128 ≤ taken.headD 0)
    (hlen : taken.length + rest.length < required_len (taken.headD 0)) :
    List.foldl clean_step
      { new_name := acc, vec_grapheme := taken, last_was_underscore := last } rest =
      { new_name := acc, vec_grapheme := taken ++ rest, last_was_underscore := last } := by
  induction rest generalizing taken with
  | nil => simp
  | cons b rs ih =>
    simp only [List.foldl_cons]
    rw [clean_step_accum _ b hne hfb (by simp at hlen ⊢; omega)]
    have hh : (taken ++ [b]).headD 0 = taken.headD 0 := by
      cases taken with
      | nil => exact absurd rfl hne
      | cons x xs => simp
    have := ih (taken ++ [b]) (by simp) (by rw [hh]; exact hfb)
      (by rw [hh]; simp at hlen ⊢; omega)
    simpa using this

/-- C9: a raw component ending in an incomplete multi-byte sequence (a lead
byte at or above 128 arrives at a sequence boundary and the input ends
before the announced number of bytes) drops the trailing bytes silently:
they contribute nothing — not even an underscore — to the sanitized
output. -/
theorem C9_trailing_incomplete_dropped (pre : List Nat) (b0 : Nat) (rest : List Nat)
    (hpre : (List.foldl clean_step cleanInit pre).vec_grapheme = [])
    (hb0 : 128 ≤ b0)
    (hlen : (b0 :: rest).length < required_len b0) :
    clean_name (pre ++ b0 :: rest) = clean_name pre := by
  have key : ∀ (acc : String) (last : Bool),
      List.foldl clean_step
        { new_name := acc, vec_grapheme := [], last_was_underscore := last } (b0 :: rest) =
        { new_name := acc, vec_grapheme := b0 :: rest, last_was_underscore := last } := by
    intro acc last
    simp only [List.foldl_cons]
    rw [clean_step_buf_start _ b0 rfl hb0]
    have := buf_accum_incomplete rest acc last [b0] (by simp) (by simpa)
      (by simp at hlen ⊢; omega)
    simpa using this
  unfold clean_name
  rw [List.foldl_append]
  rcases hfold : List.foldl clean_step cleanInit pre with ⟨acc, buf, last⟩
  rw [hfold] at hpre
  have hb : buf = [] := hpre
  subst hb
  rw [key acc last]

theorem C9_witness :
    (List.foldl clean_step cleanInit [97]).vec_grapheme = [] ∧
      clean_name ([97] ++ [195]) = clean_name [97] :=
  ⟨by decide, C9_trailing_incomplete_dropped [97] 195 [] (by decide) (by decide) (by decide)⟩

theorem getLastD_append_single (l : List (List Nat)) (a d : List Nat) :
    (l ++ [a]).getLastD d = a := by
  rw [List.getLastD_eq_getLast?, List.getLast?_append]
  rfl

theorem clean_path_dry (p : ModelPath) :
    (∃ q, clean_path p true = (PathChange.Unchanged q, none)) ∨
      (∃ q m, clean_path p true = (PathChange.ErrorRename q m "dry-run", none)) := by
  obtain ⟨parent, fileName⟩ := p
  cases fileName with
  | none => exact Or.inl ⟨parent, rfl⟩
  | some n =>
    by_cases h : strBytes (clean_name n) = n
    · exact Or.inl ⟨parent ++ [n], by simp [clean_path, ModelPath.value, h]⟩
    · exact Or.inr ⟨parent ++ [n], parent ++ [strBytes (clean_name n)],
        by simp [clean_path, ModelPath.value, h]⟩

theorem dry_newNameAfter (parent : List (List Nat)) (name : List Nat) :
    newNameAfter name (clean_path { parent := parent, fileName := some name } true).1 = name := by
  rcases clean_path_dry { parent := parent, fileName := some name } with ⟨q, hq⟩ | ⟨q, m, hq⟩ <;>
    rw [hq] <;> rfl

theorem dry_dirpath (parent : List (List Nat)) (name : List Nat) :
    (match (clean_path { parent := parent, fileName := some name } true).1 with
      | PathChange.Changed _ modified => modified
      | _ => parent ++ [name]) = parent ++ [name] := by
  rcases clean_path_dry { parent := parent, fileName := some name } with ⟨q, hq⟩ | ⟨q, m, hq⟩ <;>
    rw [hq]

mutual
theorem dry_preserves_entry (parent : List (List Nat)) :
    ∀ e : Entry, (clean_entry_fs true parent e).2 = e
  | Entry.file name => by
    simp only [clean_entry_fs]
    rw [dry_newNameAfter]
  | Entry.dir name children => by
    simp only [clean_entry_fs]
    rw [dry_newNameAfter, dry_preserves_entries _ children]

theorem dry_preserves_entries (parent : List (List Nat)) :
    ∀ es : List Entry, (clean_entries_fs true parent es).2 = es
  | [] => rfl
  | e :: rest => by
    simp only [clean_entries_fs]
    rw [dry_preserves_entry parent e, dry_preserves_entries parent rest]
end

mutual
theorem dry_mem_entry (parent : List (List Nat)) :
    ∀ (e : Entry) (pp : List (List Nat)) (n : List Nat),
      (pp, n) ∈ entriesWithPaths parent e → strBytes (clean_name n) ≠ n →
      PathChange.ErrorRename (pp ++ [n]) (pp ++ [strBytes (clean_name n)]) "dry-run" ∈
        (clean_entry_fs true parent e).1
  | Entry.file name => by
    intro pp n hm hne
    simp only [entriesWithPaths, List.mem_singleton, Prod.mk.injEq] at hm
    obtain ⟨rfl, rfl⟩ := hm
    simp only [clean_entry_fs]
    have hpath : (clean_path { parent := pp, fileName := some n } true).1 =
        PathChange.ErrorRename (pp ++ [n])
          (pp ++ [strBytes (clean_name n)]) "dry-run" := by
      simp [clean_path, ModelPath.value, hne]
    rw [hpath]
    exact List.mem_singleton.mpr rfl
  | Entry.dir name children => by
    intro pp n hm hne
    simp only [entriesWithPaths, List.mem_cons, Prod.mk.injEq] at hm
    simp only [clean_entry_fs]
    rcases hm with ⟨rfl, rfl⟩ | hm
    · have hpath : (clean_path { parent := pp, fileName := some n } true).1 =
          PathChange.ErrorRename (pp ++ [n])
            (pp ++ [strBytes (clean_name n)]) "dry-run" := by
        simp [clean_path, ModelPath.value, hne]
      rw [hpath]
      exact List.mem_cons_self _ _
    · rw [dry_dirpath parent name]
      exact List.mem_cons_of_mem _ (dry_mem_entries (parent ++ [name]) children pp n hm hne)

theorem dry_mem_entries (parent : List (List Nat)) :
    ∀ (es : List Entry) (pp : List (List Nat)) (n : List Nat),
      (pp, n) ∈ entriesListWithPaths parent es → strBytes (clean_name n) ≠ n →
      PathChange.ErrorRename (pp ++ [n]) (pp ++ [strBytes (clean_name n)]) "dry-run" ∈
        (clean_entries_fs true parent es).1
  | [] => by
    intro pp n hm hne
    simp [entriesListWithPaths] at hm
  | e :: rest => by
    intro pp n hm hne
    simp only [entriesListWithPaths, List.mem_append] at hm
    simp only [clean_entries_fs, List.mem_append]
    rcases hm with hm | hm
    · exact Or.inl (dry_mem_entry parent e pp n hm hne)
    · exact Or.inr (dry_mem_entries parent rest pp n hm hne)
end

/-- C5: with `dry_run = true` the walk never renames anything — the
filesystem subtree is identical after the walk — and for every entry whose
sanitized name differs from its raw name the outcome list contains an
`ErrorRename` whose reason is the fixed marker string "dry-run". -/
theorem C5_dry_run_non_mutation (parent : List (List Nat)) (e : Entry) :
    (clean_entry_fs true parent e).2 = e ∧
      ∀ pp n, (pp, n) ∈ entriesWithPaths parent e → strBytes (clean_name n) ≠ n →
        PathChange.ErrorRename (pp ++ [n]) (pp ++ [strBytes (clean_name n)]) "dry-run" ∈
          (clean_entry_fs true parent e).1 :=
  ⟨dry_preserves_entry parent e, fun pp n hm hne => dry_mem_entry parent e pp n hm hne⟩

theorem C5_witness :
    (clean_entry_fs true [] (Entry.dir [58] [Entry.file [97]])).2 =
        Entry.dir [58] [Entry.file [97]] ∧
      PathChange.ErrorRename [[58]] [[95]] "dry-run" ∈
        (clean_entry_fs true [] (Entry.dir [58] [Entry.file [97]])).1 := by
  have h := C5_dry_run_non_mutation [] (Entry.dir [58] [Entry.file [97]])
  refine ⟨h.1, ?_⟩
  have hm := h.2 [] [58] (by decide) (by decide)
  simpa using hm

/-- C6: walking a directory whose own name needs sanitizing renames the
directory first and continues under the new path: for a root directory
needing rename containing exactly one file needing no change, the walk
yields exactly a `Changed` outcome for the directory followed by an
`Unchanged` outcome for the file, the file path using the directory's new
name as parent, and the resulting subtree carries the new directory
name. -/
theorem C6_dir_renamed_first (parent : List (List Nat)) (dn fn : List Nat)
    (hd : strBytes (clean_name dn) ≠ dn) (hf : strBytes (clean_name fn) = fn) :
    clean_entry_fs false parent (Entry.dir dn [Entry.file fn]) =
      ([PathChange.Changed (parent ++ [dn]) (parent ++ [strBytes (clean_name dn)]),
        PathChange.Unchanged (parent ++ [strBytes (clean_name dn), fn])],
       Entry.dir (strBytes (clean_name dn)) [Entry.file fn]) := by
  have hcd : (clean_path { parent := parent, fileName := some dn } false).1 =
      PathChange.Changed (parent ++ [dn]) (parent ++ [strBytes (clean_name dn)]) := by
    simp [clean_path, ModelPath.value, hd]
  have hcf : ∀ pp : List (List Nat),
      (clean_path { parent := pp, fileName := some fn } false).1 =
        PathChange.Unchanged (pp ++ [fn]) := by
    intro pp
    simp [clean_path, ModelPath.value, hf]
  simp only [clean_entry_fs, clean_entries_fs, hcd, hcf, newNameAfter,
    getLastD_append_single]
  simp [List.append_assoc]

theorem C6_witness :
    clean_entry_fs false [] (Entry.dir [58] [Entry.file [97]]) =
      ([PathChange.Changed [[58]] [[95]],
        PathChange.Unchanged [[95], [97]]],
       Entry.dir [95] [Entry.file [97]]) := by
  have h := C6_dir_renamed_first [] [58] [97] (by decide) (by decide)
  simpa using h
